import Mathlib

/-!
Shallow embedding of the chat-application backend (models `Room`, `Message`,
`User`, their mongoose instance methods, the REST controllers and the
Socket.IO chat handlers) together with proofs about the behaviour that the
specification describes.

Conventions of the embedding:
* Object ids (`UserId`, `RoomId`) are natural numbers; `toString` equality on
  ObjectIds in the source becomes equality of these numbers.
* Timestamps are integers (milliseconds since epoch), so that the
  `Date.now() - 15 * 60 * 1000` arithmetic of the edit-window check is exact.
* A mongoose `save()` runs the schema's pre-save middleware; for messages that
  middleware recounts every reaction (`reaction.count = reaction.users.length`),
  which `Message.save` reproduces.
* Fallible handler/controller paths are `Except String α`: `Except.error msg`
  is the `socket.emit('error', {message})` / non-2xx JSON response carrying
  `msg`, and by construction an error leaves every record unchanged, exactly as
  the early-`return` style of the source does.
* An `Except.ok` result of a socket handler means the handler ran to its final
  emit: in particular `reactHandler = .ok _` means `message:reaction:added` was
  fanned out to the room.
-/

namespace Chat

abbrev UserId := Nat
abbrev RoomId := Nat
abbrev Time := Int

instance {ε α : Type} [DecidableEq ε] [DecidableEq α] :
    DecidableEq (Except ε α) := fun x y =>
  match x, y with
  | .ok a, .ok b =>
    if h : a = b then isTrue (by rw [h])
    else isFalse (by intro hc; cases hc; exact h rfl)
  | .error a, .error b =>
    if h : a = b then isTrue (by rw [h])
    else isFalse (by intro hc; cases hc; exact h rfl)
  | .ok _, .error _ => isFalse (by intro hc; cases hc)
  | .error _, .ok _ => isFalse (by intro hc; cases hc)

/-- The `role` enum of a room member: `['admin', 'moderator', 'member']`. -/
inductive Role where
  | admin
  | moderator
  | member
deriving DecidableEq, Repr

/-- The `type` enum of a room: `['direct', 'group', 'public']`. -/
inductive RoomType where
  | direct
  | group
  | public
deriving DecidableEq, Repr

/-- One entry of `roomSchema.members`. -/
structure Member where
  user : UserId
  role : Role
  joinedAt : Time
  lastReadAt : Time
deriving DecidableEq, Repr

/-- Embeds `roomSchema.settings`. -/
structure RoomSettings where
  isPrivate : Bool
  allowInvites : Bool
  maxMembers : Nat
deriving DecidableEq, Repr

/-- The `Room` document (fields relevant to membership, settings and
liveness; presentation-only fields such as `avatar` and `description` are
elided). `rtype` embeds the schema field `type`. -/
structure Room where
  name : String
  rtype : RoomType
  creator : UserId
  members : List Member
  settings : RoomSettings
  isActive : Bool
deriving DecidableEq, Repr

/-- One entry of `messageSchema.metadata.editHistory`. -/
structure EditEntry where
  content : String
  editedAt : Time
deriving DecidableEq, Repr

/-- One entry of `messageSchema.reactions`. -/
structure Reaction where
  emoji : String
  users : List UserId
  count : Nat
deriving DecidableEq, Repr

/-- The `Message` document (fields relevant to the lifecycle operations;
file/reply metadata elided). `editedAt`/`editHistory` embed
`metadata.editedAt`/`metadata.editHistory`. -/
structure Message where
  content : String
  sender : UserId
  room : RoomId
  createdAt : Time
  reactions : List Reaction
  editedAt : Option Time
  editHistory : List EditEntry
  isDeleted : Bool
  deletedAt : Option Time
  deletedBy : Option UserId
deriving DecidableEq, Repr

/-- The `User` document (status-related fields only). -/
structure User where
  status : String
  lastSeen : Time
  isActive : Bool
deriving DecidableEq, Repr

/-! ## Room instance methods (`models/Room.js`) -/

/-- Embeds `roomSchema.methods.isMember`. -/
def Room.isMember (r : Room) (uid : UserId) : Bool :=
  r.members.any (fun m => m.user == uid)

/-- Embeds `roomSchema.methods.isAdmin`: the found member must exist, and be an
admin or the creator. -/
def Room.isAdmin (r : Room) (uid : UserId) : Bool :=
  match r.members.find? (fun m => m.user == uid) with
  | none => false
  | some m => m.role == Role.admin || r.creator == uid

/-- Mutate the first member with the given user id in place, as the JS
`members.find(...)` + field assignment does. -/
def updateFirstMember (ms : List Member) (uid : UserId) (f : Member → Member) :
    List Member :=
  match ms with
  | [] => []
  | m :: rest =>
    if m.user == uid then f m :: rest else m :: updateFirstMember rest uid f

/-- Embeds `roomSchema.methods.addMember`: reject an existing member, reject when the
member limit is reached, otherwise push the new member record. -/
def Room.addMember (r : Room) (uid : UserId) (role : Role) (now : Time) :
    Except String Room :=
  if (r.members.find? (fun m => m.user == uid)).isSome then
    .error "User is already a member of this room"
  else if r.members.length ≥ r.settings.maxMembers then
    .error "Room has reached maximum member limit"
  else
    .ok { r with members := r.members ++
      [{ user := uid, role := role, joinedAt := now, lastReadAt := now }] }

/-- Embeds `roomSchema.methods.removeMember`: filter the member out. -/
def Room.removeMember (r : Room) (uid : UserId) : Room :=
  { r with members := r.members.filter (fun m => m.user != uid) }

/-- Embeds `roomSchema.methods.updateMemberRole`. -/
def Room.updateMemberRole (r : Room) (uid : UserId) (newRole : Role) :
    Except String Room :=
  if (r.members.find? (fun m => m.user == uid)).isSome then
    .ok { r with members :=
      updateFirstMember r.members uid (fun m => { m with role := newRole }) }
  else
    .error "User is not a member of this room"

/-- Embeds `roomSchema.methods.updateLastRead`: the member's `lastReadAt` is set to
`new Date()` — the current time — not to any caller-supplied timestamp; a
non-member leaves the room unchanged. -/
def Room.updateLastRead (r : Room) (uid : UserId) (now : Time) : Room :=
  if (r.members.find? (fun m => m.user == uid)).isSome then
    { r with members :=
      updateFirstMember r.members uid (fun m => { m with lastReadAt := now }) }
  else r

/-- An observer for watermark statements: the `lastReadAt` of the member
record for `u`, when `u` is a member. -/
def lastReadOf (r : Room) (u : UserId) : Option Time :=
  (r.members.find? (fun m => m.user == u)).map Member.lastReadAt

/-- The store of rooms, keyed by id, in creation order. -/
abbrev Store := List (RoomId × Room)

/-- The `findOne({type:'direct', 'members.user': {$all:[u1,u2]}})` filter. -/
def directRoomPred (u1 u2 : UserId) (r : Room) : Bool :=
  r.rtype == RoomType.direct
    && r.members.any (fun m => m.user == u1)
    && r.members.any (fun m => m.user == u2)

/-- The direct room freshly built by `createDirectRoom`: both members admins,
private, no invites, `maxMembers := 2`. -/
def freshDirectRoom (u1 u2 : UserId) (now : Time) : Room :=
  { name := "Direct Message"
    rtype := RoomType.direct
    creator := u1
    members :=
      [{ user := u1, role := Role.admin, joinedAt := now, lastReadAt := now },
       { user := u2, role := Role.admin, joinedAt := now, lastReadAt := now }]
    settings := { isPrivate := true, allowInvites := false, maxMembers := 2 }
    isActive := true }

/-- Embeds `roomSchema.statics.createDirectRoom`: return the existing direct room for
the pair when one exists, otherwise create one under the fresh id
`freshId`. -/
def Room.createDirectRoom (store : Store) (u1 u2 : UserId) (freshId : RoomId)
    (now : Time) : RoomId × Store :=
  match store.find? (fun p => directRoomPred u1 u2 p.2) with
  | some p => (p.1, store)
  | none => (freshId, store ++ [(freshId, freshDirectRoom u1 u2 now)])

/-! ## Message instance methods (`models/Message.js`) -/

/-- JS `String.prototype.trim`: strip whitespace from both ends (defined over
the character list so that it evaluates in the kernel). -/
def strTrim (s : String) : String :=
  String.mk
    (((s.toList.dropWhile Char.isWhitespace).reverse.dropWhile
      Char.isWhitespace).reverse)

/-- The message pre-save middleware: `reaction.count = reaction.users.length`
for every reaction. -/
def preSaveRecount (rs : List Reaction) : List Reaction :=
  rs.map (fun r => { r with count := r.users.length })

/-- Embeds `message.save()` — runs the pre-save middleware. -/
def Message.save (m : Message) : Message :=
  { m with reactions := preSaveRecount m.reactions }

/-- Mutate the first reaction with the given emoji in place. -/
def updateFirstReaction (rs : List Reaction) (emoji : String)
    (f : Reaction → Reaction) : List Reaction :=
  match rs with
  | [] => []
  | r :: rest =>
    if r.emoji == emoji then f r :: rest else r :: updateFirstReaction rest emoji f

/-- Embeds `messageSchema.methods.addReaction`: when no entry for the emoji exists a
fresh one is pushed and (since the user is certainly not in its empty user
list) the user is appended to it; when the entry exists the user is appended
only if not already present; then the message is saved. -/
def Message.addReaction (m : Message) (emoji : String) (uid : UserId) :
    Message :=
  let reactions :=
    match m.reactions.find? (fun r => r.emoji == emoji) with
    | none => m.reactions ++ [{ emoji := emoji, users := [uid], count := 1 }]
    | some r =>
      if uid ∈ r.users then m.reactions
      else updateFirstReaction m.reactions emoji
        (fun r => { r with users := r.users ++ [uid],
                           count := r.users.length + 1 })
  Message.save { m with reactions := reactions }

/-- Embeds `messageSchema.methods.removeReaction`: filter the user out of the emoji's
user set; when the set becomes empty drop the emoji entry entirely; then
save. A missing emoji entry is a no-op (but still saves). -/
def Message.removeReaction (m : Message) (emoji : String) (uid : UserId) :
    Message :=
  let reactions :=
    match m.reactions.find? (fun r => r.emoji == emoji) with
    | none => m.reactions
    | some r =>
      let users2 := r.users.filter (fun u => u != uid)
      if users2.length == 0 then
        m.reactions.filter (fun r => r.emoji != emoji)
      else
        updateFirstReaction m.reactions emoji
          (fun r => { r with users := r.users.filter (fun u => u != uid),
                             count := (r.users.filter (fun u => u != uid)).length })
  Message.save { m with reactions := reactions }

/-- Embeds `messageSchema.methods.editContent`: only the sender may edit; the prior
content is pushed onto the edit history, the content replaced and `editedAt`
stamped; then save. -/
def Message.editContent (m : Message) (newContent : String) (editorId : UserId)
    (now : Time) : Except String Message :=
  if m.sender != editorId then
    .error "Only the sender can edit this message"
  else
    .ok (Message.save { m with
      editHistory := m.editHistory ++ [{ content := m.content, editedAt := now }]
      content := newContent
      editedAt := some now })

/-- Embeds `messageSchema.methods.softDelete`: set the deletion flag, stamp deleter
and time, and replace the content with the fixed placeholder; then save. -/
def Message.softDelete (m : Message) (deleterId : UserId) (now : Time) :
    Message :=
  Message.save { m with
    isDeleted := true
    deletedAt := some now
    deletedBy := some deleterId
    content := "This message has been deleted" }

/-! ## User status (`models/User.js`, `controllers/userController.js`,
`routes/users.js`, socket `status:update` in the connection handler) -/

/-- Embeds `userSchema.methods.updateStatus`: store the status verbatim; an
`offline` status additionally refreshes `lastSeen`; then save. -/
def User.updateStatus (u : User) (status : String) (now : Time) : User :=
  if status == "offline" then { u with status := status, lastSeen := now }
  else { u with status := status }

/-- Embeds `updateStatusValidation` in `routes/users.js`:
`body('status').isIn(['online', 'away', 'busy', 'offline'])`. -/
def updateStatusValidation (status : String) : Bool :=
  ["online", "away", "busy", "offline"].contains status

/-- REST `PUT /api/users/status` (`userController.updateStatus`): reject when
the route validation failed, otherwise persist via `user.updateStatus`. -/
def restUpdateStatus (u : User) (status : String) (now : Time) :
    Except String User :=
  if !(updateStatusValidation status) then .error "Validation failed"
  else .ok (u.updateStatus status now)

/-- Socket `status:update` handler: only `online`, `away`, `busy` are
accepted; everything else (including `offline`) is rejected with
`Invalid status`. -/
def socketStatusUpdate (u : User) (status : String) (now : Time) :
    Except String User :=
  if !(["online", "away", "busy"].contains status) then .error "Invalid status"
  else .ok (u.updateStatus status now)

/-! ## Room controllers (`controllers/roomController.js`)

The controllers receive the looked-up room (the result of
`Room.findById`) as an `Option Room`; database writes that touch other
collections (`User.joinedRooms` bookkeeping) are elided. -/

/-- Embeds `roomController.updateRoom`, restricted to its `settings` branch (line
247-253; `name`/`description`/`avatar` are presentation only and elided):
admin required; `settings.maxMembers` is clamped to at most 1000
(`Math.min(settings.maxMembers, 1000)`) and — crucially — never compared
against the current member count. Saving runs mongoose validation, which
enforces the schema bounds `min: 2, max: 1000` on `settings.maxMembers`. -/
def updateRoomCtrl (r : Room) (actorId : UserId) (isPrivate2 : Option Bool)
    (allowInvites2 : Option Bool) (maxMembers2 : Option Nat) :
    Except String Room :=
  if !(r.isAdmin actorId) then .error "Admin privileges required"
  else
    let s1 := match isPrivate2 with
      | none => r.settings
      | some b => { r.settings with isPrivate := b }
    let s2 := match allowInvites2 with
      | none => s1
      | some b => { s1 with allowInvites := b }
    let s3 := match maxMembers2 with
      | none => s2
      | some v => { s2 with maxMembers := min v 1000 }
    if 2 ≤ s3.maxMembers ∧ s3.maxMembers ≤ 1000 then
      .ok { r with settings := s3 }
    else
      .error "Room validation failed"

/-- Embeds `roomController.createRoom`: the creator becomes the sole (admin) member;
`maxMembers` is clamped to at most 1000 and then subject to the schema's
`min: 2` validation on save. -/
def createRoomCtrl (uid : UserId) (name : String) (rtype : RoomType)
    (isPrivate : Bool) (maxMembers : Nat) (now : Time) : Except String Room :=
  let r : Room :=
    { name := name
      rtype := rtype
      creator := uid
      members := [{ user := uid, role := Role.admin, joinedAt := now,
                    lastReadAt := now }]
      settings := { isPrivate := isPrivate, allowInvites := true,
                    maxMembers := min maxMembers 1000 }
      isActive := true }
  if 2 ≤ r.settings.maxMembers then .ok r
  else .error "Room validation failed"

/-- Embeds `roomController.joinRoom`: inactive room → not found; private room →
forbidden; already a member → rejected; otherwise `room.addMember`. -/
def joinRoomCtrl (r : Room) (uid : UserId) (now : Time) : Except String Room :=
  if !r.isActive then .error "Room not found"
  else if r.settings.isPrivate then
    .error "Cannot join private room without invitation"
  else if r.isMember uid then .error "You are already a member of this room"
  else r.addMember uid Role.member now

/-- Embeds `roomController.addMember` (the target user's existence check against the
`User` collection is elided): inviter must be a member, and an admin when
invites are disabled; then `room.addMember`. -/
def addMemberCtrl (r : Room) (actorId target : UserId) (role : Role)
    (now : Time) : Except String Room :=
  if !(r.isMember actorId) || (!r.settings.allowInvites && !(r.isAdmin actorId))
  then .error "You do not have permission to add members"
  else r.addMember target role now

/-- Embeds `roomController.removeMember`: admin required; the creator can never be
the target; otherwise `room.removeMember`. -/
def removeMemberCtrl (r : Room) (actorId target : UserId) :
    Except String Room :=
  if !(r.isAdmin actorId) then .error "Admin privileges required"
  else if r.creator == target then .error "Cannot remove room creator"
  else .ok (r.removeMember target)

/-- Embeds `roomController.updateMemberRole`: admin required; the creator's role can
never be changed; otherwise `room.updateMemberRole`. -/
def updateMemberRoleCtrl (r : Room) (actorId target : UserId) (newRole : Role) :
    Except String Room :=
  if !(r.isAdmin actorId) then .error "Admin privileges required"
  else if r.creator == target then .error "Cannot change creator role"
  else r.updateMemberRole target newRole

/-- Embeds `roomController.leaveRoom`: must be a member; the creator cannot leave;
otherwise `room.removeMember`. -/
def leaveRoomCtrl (r : Room) (uid : UserId) : Except String Room :=
  if !(r.isMember uid) then .error "You are not a member of this room"
  else if r.creator == uid then
    .error "Room creator cannot leave the room. Transfer ownership or delete the room instead."
  else .ok (r.removeMember uid)

/-! ## Socket chat handlers (`socket/chatHandlers.js`)

Each handler receives the looked-up message/room (`Message.findById` /
`Room.findById`) as an `Option`; `messageId`/`roomId` stand for the raw
payload fields, whose only relevant property is JS-falsiness, embedded as the
empty string. An `Except.ok` result means the handler reached its final
`io.to(room).emit(...)` fan-out. -/

/-- Socket `message:edit`: payload validation, sender check, 15-minute edit
window (`message.createdAt < Date.now() - 15 * 60 * 1000` → too old), then
`message.editContent(content.trim(), userId)`. There is no `isDeleted` check
on this path. -/
def editHandler (message2 : Option Message) (uid : UserId)
    (messageId content : String) (now : Time) : Except String Message :=
  if messageId == "" || strTrim content == "" then
    .error "Message ID and content are required"
  else
    match message2 with
    | none => .error "Message not found"
    | some m =>
      if m.sender != uid then .error "You can only edit your own messages"
      else if m.createdAt < now - 15 * 60 * 1000 then
        .error "Message is too old to edit"
      else m.editContent (strTrim content) uid now

/-- Socket `message:react`: payload validation, message lookup, room
membership check, then `message.addReaction(emoji, userId)` and an
unconditional `message:reaction:added` fan-out (the `.ok` result). A missing
room makes `room.isMember` throw, caught as the generic failure message.
There is no `isDeleted` check on this path. -/
def reactHandler (message2 : Option Message) (room2 : Option Room)
    (uid : UserId) (messageId emoji : String) : Except String Message :=
  if messageId == "" || emoji == "" then
    .error "Message ID and emoji are required"
  else
    match message2 with
    | none => .error "Message not found"
    | some m =>
      match room2 with
      | none => .error "Failed to add reaction"
      | some room =>
        if !(room.isMember uid) then
          .error "You are not a member of this room"
        else .ok (m.addReaction emoji uid)

/-- Socket `message:unreact`: payload validation, message lookup, then
directly `message.removeReaction(emoji, userId)` and the
`message:reaction:removed` fan-out — the handler never looks the room up and
performs no membership check, and has no `isDeleted` check either. -/
def unreactHandler (message2 : Option Message) (uid : UserId)
    (messageId emoji : String) : Except String Message :=
  if messageId == "" || emoji == "" then
    .error "Message ID and emoji are required"
  else
    match message2 with
    | none => .error "Message not found"
    | some m => .ok (m.removeReaction emoji uid)

/-- Socket `messages:mark_read` (the optional `messageIds` bulk `readBy`
update and the `messages:read` fan-out are elided): room lookup plus
membership check, then `room.updateLastRead(userId)` — which stamps the
member's `lastReadAt` with the current time; the payload carries no
timestamp at all. -/
def markReadHandler (room2 : Option Room) (uid : UserId) (roomId : String)
    (now : Time) : Except String Room :=
  if roomId == "" then .error "Room ID is required"
  else
    match room2 with
    | none => .error "Room not found or access denied"
    | some room =>
      if !(room.isMember uid) then .error "Room not found or access denied"
      else .ok (room.updateLastRead uid now)

/-! ## REST message controllers (`controllers/messageController.js`)

Unlike the socket handlers these guard on `message.isDeleted`
(`if (!message || message.isDeleted)` → 404 `Message not found`). -/

/-- Embeds `messageController.updateMessage`. -/
def restUpdateMessage (message2 : Option Message) (uid : UserId)
    (content : String) (now : Time) : Except String Message :=
  match message2 with
  | none => .error "Message not found"
  | some m =>
    if m.isDeleted then .error "Message not found"
    else if m.sender != uid then .error "You can only edit your own messages"
    else if m.createdAt < now - 15 * 60 * 1000 then
      .error "Message is too old to edit"
    else m.editContent (strTrim content) uid now

/-- Embeds `messageController.addReaction`. -/
def restAddReaction (message2 : Option Message) (room2 : Option Room)
    (uid : UserId) (emoji : String) : Except String Message :=
  match message2 with
  | none => .error "Message not found"
  | some m =>
    if m.isDeleted then .error "Message not found"
    else
      match room2 with
      | none => .error "Access denied"
      | some room =>
        if !(room.isMember uid) then .error "Access denied"
        else .ok (m.addReaction emoji uid)

/-- Embeds `messageController.removeReaction`. -/
def restRemoveReaction (message2 : Option Message) (uid : UserId)
    (emoji : String) : Except String Message :=
  match message2 with
  | none => .error "Message not found"
  | some m =>
    if m.isDeleted then .error "Message not found"
    else .ok (m.removeReaction emoji uid)

/-! ## Concrete fixtures used by counterexamples and witnesses -/

/-- A member record with default timestamps. -/
def mkMember (u : UserId) (role : Role) : Member :=
  { user := u, role := role, joinedAt := 0, lastReadAt := 0 }

/-- A plain group room: creator 1 (admin), second member 3. -/
def roomA : Room :=
  { name := "general"
    rtype := RoomType.group
    creator := 1
    members := [mkMember 1 Role.admin, mkMember 3 Role.member]
    settings := { isPrivate := false, allowInvites := true, maxMembers := 100 }
    isActive := true }

/-- A plain text message from user 2 in room 1, created at time 0. -/
def msgA : Message :=
  { content := "hello"
    sender := 2
    room := 1
    createdAt := 0
    reactions := []
    editedAt := none
    editHistory := []
    isDeleted := false
    deletedAt := none
    deletedBy := none }

/-- The message `msgA` after the sender soft-deleted it at time 100. -/
def delMsgA : Message := msgA.softDelete 2 100

/-- A message that already carries user 1's reaction with emoji `x`
(consistent counts). -/
def msgReacted : Message :=
  { msgA with reactions := [{ emoji := "x", users := [1], count := 1 }] }

/-- A three-member group room (creator 1 plus users 2 and 3),
`maxMembers = 100`. -/
def roomThree : Room :=
  { name := "team"
    rtype := RoomType.group
    creator := 1
    members := [mkMember 1 Role.admin, mkMember 2 Role.member,
                mkMember 3 Role.member]
    settings := { isPrivate := false, allowInvites := true, maxMembers := 100 }
    isActive := true }

/-- A user record currently online. -/
def userA : User := { status := "online", lastSeen := 0, isActive := true }

/-- The room `roomThree` after `updateRoom` capped `maxMembers` at 2. -/
def roomThreeCapped : Room :=
  { roomThree with settings := { roomThree.settings with maxMembers := 2 } }

/-- The room `roomA` after user 5 was added as a member at time 7. -/
def roomAafterAdd : Room :=
  { roomA with members := roomA.members
      ++ [{ user := 5, role := Role.member, joinedAt := 7, lastReadAt := 7 }] }

/-! ## Helper lemmas -/

theorem any_eq_find?_isSome (l : List α) (p : α → Bool) :
    l.any p = (l.find? p).isSome := by
  induction l with
  | nil => rfl
  | cons a t ih =>
    cases h : p a with
    | true => simp [List.find?_cons_of_pos _ h, h]
    | false =>
      rw [List.find?_cons_of_neg t (by simp [h])]
      simp [h, ih]

theorem find?_congr2 {l : List α} {p q : α → Bool} (h : ∀ x, p x = q x) :
    l.find? p = l.find? q := by
  induction l with
  | nil => rfl
  | cons a t ih =>
    cases hq : q a with
    | true =>
      rw [List.find?_cons_of_pos _ (by rw [h a, hq]),
        List.find?_cons_of_pos _ hq]
    | false =>
      rw [List.find?_cons_of_neg _ (by simp [h a, hq]),
        List.find?_cons_of_neg _ (by simp [hq]), ih]

theorem find?_append_of_none {l1 l2 : List α} {p : α → Bool}
    (h : l1.find? p = none) : (l1 ++ l2).find? p = l2.find? p := by
  induction l1 with
  | nil => rfl
  | cons a t ih =>
    have ha : p a = false := by
      cases hpa : p a with
      | true => rw [List.find?_cons_of_pos _ hpa] at h; cases h
      | false => rfl
    rw [List.find?_cons_of_neg _ (by simp [ha])] at h
    rw [List.cons_append, List.find?_cons_of_neg _ (by simp [ha]), ih h]

theorem updateFirstMember_any_user (ms : List Member) (uid : UserId)
    (f : Member → Member) (hf : ∀ m, (f m).user = m.user) (x : UserId) :
    ((updateFirstMember ms uid f).any fun m => m.user == x)
      = (ms.any fun m => m.user == x) := by
  induction ms with
  | nil => rfl
  | cons m rest ih =>
    by_cases h : (m.user == uid) = true
    · simp [updateFirstMember, h, hf m]
    · simp only [updateFirstMember, h, if_false, Bool.false_eq_true,
        List.any_cons, ih]

theorem updateFirstMember_lastRead (ms : List Member) (uid : UserId)
    (n : Time) (h : ms.any (fun m => m.user == uid) = true) :
    ((updateFirstMember ms uid (fun m => { m with lastReadAt := n })).find?
      (fun m => m.user == uid)).map Member.lastReadAt = some n := by
  induction ms with
  | nil => cases h
  | cons m rest ih =>
    by_cases hm : (m.user == uid) = true
    · simp [updateFirstMember, hm, List.find?_cons_of_pos _ hm]
    · have hrest : rest.any (fun m => m.user == uid) = true := by
        simpa [hm] using h
      simp only [updateFirstMember, hm, if_false, Bool.false_eq_true]
      rw [List.find?_cons_of_neg _ (by simp [hm])]
      exact ih hrest

theorem mem_updateFirstReaction {rs : List Reaction} {e : String}
    {f : Reaction → Reaction} {x : Reaction}
    (hx : x ∈ updateFirstReaction rs e f) :
    x ∈ rs ∨ ∃ y, rs.find? (fun r => r.emoji == e) = some y ∧ x = f y := by
  induction rs with
  | nil => cases hx
  | cons r rest ih =>
    by_cases hr : (r.emoji == e) = true
    · simp only [updateFirstReaction, hr, if_true] at hx
      rcases List.mem_cons.mp hx with h | h
      · exact Or.inr ⟨r, List.find?_cons_of_pos _ hr, h⟩
      · exact Or.inl (List.mem_cons_of_mem _ h)
    · simp only [updateFirstReaction, hr, if_false, Bool.false_eq_true] at hx
      rcases List.mem_cons.mp hx with h | h
      · exact Or.inl (h ▸ List.mem_cons_self _ _)
      · rcases ih h with h2 | ⟨y, hy, hxy⟩
        · exact Or.inl (List.mem_cons_of_mem _ h2)
        · exact Or.inr ⟨y, by rw [List.find?_cons_of_neg _ (by simp [hr])]; exact hy, hxy⟩

theorem preSaveRecount_counts {rs : List Reaction} :
    ∀ x ∈ preSaveRecount rs, x.count = x.users.length := by
  intro x hx
  rcases List.mem_map.mp hx with ⟨y, _, rfl⟩
  rfl

theorem mem_preSaveRecount {rs : List Reaction} {x : Reaction}
    (hx : x ∈ preSaveRecount rs) :
    ∃ y ∈ rs, x = { y with count := y.users.length } := by
  rcases List.mem_map.mp hx with ⟨y, hy, rfl⟩
  exact ⟨y, hy, rfl⟩

theorem preSaveRecount_eq_self {rs : List Reaction}
    (h : ∀ r ∈ rs, r.count = r.users.length) : preSaveRecount rs = rs := by
  induction rs with
  | nil => rfl
  | cons r rest ih =>
    have hr : r.count = r.users.length := h r (List.mem_cons_self _ _)
    have : ({ r with count := r.users.length } : Reaction) = r := by
      rw [← hr]
    simp only [preSaveRecount, List.map_cons] at *
    rw [this, ih fun x hx => h x (List.mem_cons_of_mem _ hx)]

/-! ## Claim C1 -/

/-- C1 counterexample: the claim says every subsequent edit/react/unreact on a
deleted message is rejected, but the socket `message:react` handler has no
`isDeleted` check: user 3, a member of the room, reacts to the soft-deleted
message `delMsgA` and the handler succeeds (fanning out
`message:reaction:added`) and changes the reaction set of the deleted
message. -/
theorem socket_react_on_deleted_message_succeeds :
    delMsgA.isDeleted = true
    ∧ reactHandler (some delMsgA) (some roomA) 3 "m1" "y"
        = Except.ok (delMsgA.addReaction "y" 3)
    ∧ (delMsgA.addReaction "y" 3).reactions ≠ delMsgA.reactions := by
  refine ⟨rfl, rfl, ?_⟩
  decide

/-- C1 amended: once `isDeleted`, the content equals the fixed placeholder,
and the REST edit/react/unreact controllers reject the message with a
not-found error, leaving it unchanged; the socket handlers, however, perform
no `isDeleted` check. -/
theorem deleted_placeholder_and_rest_ops_rejected (m : Message)
    (room2 : Option Room) (uid d : UserId) (c e : String) (now t : Time)
    (hdel : m.isDeleted = true) :
    (m.softDelete d t).content = "This message has been deleted"
    ∧ restUpdateMessage (some m) uid c now = Except.error "Message not found"
    ∧ restAddReaction (some m) room2 uid e = Except.error "Message not found"
    ∧ restRemoveReaction (some m) uid e = Except.error "Message not found" := by
  refine ⟨rfl, ?_, ?_, ?_⟩ <;>
    simp [restUpdateMessage, restAddReaction, restRemoveReaction, hdel]

/-- Witness for the C1 amended theorem at the concrete deleted message
`delMsgA`. -/
theorem deleted_placeholder_and_rest_ops_rejected_witness :
    delMsgA.isDeleted = true
    ∧ ((delMsgA.softDelete 2 100).content = "This message has been deleted"
      ∧ restUpdateMessage (some delMsgA) 2 "hi" 200
          = Except.error "Message not found"
      ∧ restAddReaction (some delMsgA) (some roomA) 3 "y"
          = Except.error "Message not found"
      ∧ restRemoveReaction (some delMsgA) 3 "y"
          = Except.error "Message not found") :=
  ⟨by decide,
   deleted_placeholder_and_rest_ops_rejected delMsgA (some roomA) 2 2 "hi" "y"
     200 100 (by decide)⟩

/-! ## Claim C2 -/

/-- C2 counterexample: the claim says `len(members(R)) ≤ R.settings.maxMembers`
holds at every point, including after `updateRoom`; but `updateRoom` only
clamps `settings.maxMembers` into the schema range and never compares it with
the current member count: the creator of the 3-member room `roomThree` lowers
`maxMembers` to 2 and the update succeeds, leaving
`members.length = 3 > maxMembers = 2`. -/
theorem updateRoom_can_break_member_bound :
    updateRoomCtrl roomThree 1 none none (some 2) = Except.ok roomThreeCapped
    ∧ roomThreeCapped.members.length = 3
    ∧ roomThreeCapped.settings.maxMembers = 2 := by
  decide

/-- Any successful `room.addMember` leaves the member count within the
limit: success requires `members.length < maxMembers` beforehand and appends
exactly one member. -/
theorem addMember_bound {r : Room} {uid : UserId} {role : Role} {now : Time}
    {r2 : Room} (h : r.addMember uid role now = Except.ok r2) :
    r2.members.length ≤ r2.settings.maxMembers := by
  unfold Room.addMember at h
  split at h
  · cases h
  · split at h
    · cases h
    · cases h
      simp only [List.length_append, List.length_cons, List.length_nil]
      omega

/-- C2 amended: the bound `len(members(R)) ≤ R.settings.maxMembers` is
established by room creation and direct-room creation and preserved by every
member-adding operation (`addMember` on the model, `joinRoom` and the
`addMember` controller), but `updateRoom` (see the counterexample) can lower
`maxMembers` below the current member count. -/
theorem member_bound_preserved_by_membership_ops :
    (∀ (r : Room) (uid : UserId) (role : Role) (now : Time) (r2 : Room),
      r.addMember uid role now = Except.ok r2 →
      r2.members.length ≤ r2.settings.maxMembers)
    ∧ (∀ (r : Room) (uid : UserId) (now : Time) (r2 : Room),
      joinRoomCtrl r uid now = Except.ok r2 →
      r2.members.length ≤ r2.settings.maxMembers)
    ∧ (∀ (r : Room) (a t : UserId) (role : Role) (now : Time) (r2 : Room),
      addMemberCtrl r a t role now = Except.ok r2 →
      r2.members.length ≤ r2.settings.maxMembers)
    ∧ (∀ (uid : UserId) (name : String) (ty : RoomType) (priv : Bool)
        (mx : Nat) (now : Time) (r2 : Room),
      createRoomCtrl uid name ty priv mx now = Except.ok r2 →
      r2.members.length ≤ r2.settings.maxMembers)
    ∧ (∀ (s : Store) (u1 u2 : UserId) (fid : RoomId) (now : Time),
      (∀ p ∈ s, (p : RoomId × Room).2.members.length
        ≤ p.2.settings.maxMembers) →
      ∀ p ∈ (Room.createDirectRoom s u1 u2 fid now).2,
        p.2.members.length ≤ p.2.settings.maxMembers) := by
  refine ⟨fun r uid role now r2 h => addMember_bound h, ?_, ?_, ?_, ?_⟩
  · intro r uid now r2 h
    unfold joinRoomCtrl at h
    split at h
    · cases h
    · split at h
      · cases h
      · split at h
        · cases h
        · exact addMember_bound h
  · intro r a t role now r2 h
    unfold addMemberCtrl at h
    split at h
    · cases h
    · exact addMember_bound h
  · intro uid name ty priv mx now r2 h
    dsimp only [createRoomCtrl] at h
    split at h
    · cases h
      simp only [List.length_cons, List.length_nil]
      omega
    · cases h
  · intro s u1 u2 fid now hs p hp
    unfold Room.createDirectRoom at hp
    split at hp
    · exact hs p hp
    · rcases List.mem_append.mp hp with h | h
      · exact hs p h
      · rcases List.mem_singleton.mp h with rfl
        simp [freshDirectRoom]

/-- Witness for the C2 amended theorem: adding user 5 to `roomA` succeeds and
the resulting room respects the member bound. -/
theorem member_bound_preserved_by_membership_ops_witness :
    roomA.addMember 5 Role.member 7 = Except.ok roomAafterAdd
    ∧ roomAafterAdd.members.length ≤ roomAafterAdd.settings.maxMembers :=
  ⟨by decide,
   member_bound_preserved_by_membership_ops.1 roomA 5 Role.member 7
     roomAafterAdd (by decide)⟩

/-! ## Claim C3 -/

/-- C3: an edit request by the sender strictly after `createdAt + 15min`
fails with the too-old error (and, the handler having returned before any
save, the message is unchanged); at or before that bound the edit succeeds,
appending the prior content to the edit history and updating the content and
`editedAt`. -/
theorem edit_window_enforced (m : Message) (mid content : String) (now : Time)
    (hmid : mid ≠ "") (hc : strTrim content ≠ "") :
    (m.createdAt + 15 * 60 * 1000 < now →
      editHandler (some m) m.sender mid content now
        = Except.error "Message is too old to edit")
    ∧ (now ≤ m.createdAt + 15 * 60 * 1000 →
      editHandler (some m) m.sender mid content now
        = Except.ok (Message.save { m with
            editHistory := m.editHistory
              ++ [{ content := m.content, editedAt := now }]
            content := strTrim content
            editedAt := some now })) := by
  have hmid2 : (mid == "") = false := by simp [hmid]
  have hc2 : (strTrim content == "") = false := by simp [hc]
  constructor
  · intro h
    simp only [editHandler, hmid2, hc2, Bool.or_self, Bool.false_eq_true,
      if_false, bne_self_eq_false]
    rw [if_pos (by linarith : m.createdAt < now - 15 * 60 * 1000)]
  · intro h
    simp only [editHandler, hmid2, hc2, Bool.or_self, Bool.false_eq_true,
      if_false, bne_self_eq_false]
    rw [if_neg (by intro hlt; linarith : ¬ m.createdAt < now - 15 * 60 * 1000)]
    simp [Message.editContent]

/-- Witness for C3 at the concrete message `msgA` (created at time 0): an
edit at `t = 10^9 ms` is rejected as too old, an edit at `t = 1000 ms`
succeeds and records the history entry. -/
theorem edit_window_enforced_witness :
    editHandler (some msgA) msgA.sender "m1" "hi" 1000000000
      = Except.error "Message is too old to edit"
    ∧ editHandler (some msgA) msgA.sender "m1" "hi" 1000
      = Except.ok (Message.save { msgA with
          editHistory := msgA.editHistory
            ++ [{ content := msgA.content, editedAt := 1000 }]
          content := strTrim "hi"
          editedAt := some 1000 }) :=
  ⟨(edit_window_enforced msgA "m1" "hi" 1000000000 (by decide) (by decide)).1
     (by decide),
   (edit_window_enforced msgA "m1" "hi" 1000 (by decide) (by decide)).2
     (by decide)⟩

/-! ## Claim C4 -/

/-- C4 counterexample: the claim says the reaction fan-out event is emitted
only when the reaction set actually changed; but user 1 already holds the `x`
reaction on `msgReacted`, reacts again, the handler succeeds — and an
`Except.ok` result is precisely the handler reaching its unconditional
`io.to(...).emit('message:reaction:added', ...)` — while the returned message
equals the input, i.e. nothing changed. -/
theorem react_event_emitted_without_change :
    reactHandler (some msgReacted) (some roomA) 1 "m1" "x"
      = Except.ok msgReacted := by
  decide

/-- C4 amended: reacting with an emoji the user already reacted with leaves
the message (in particular its reaction sets) completely unchanged
(idempotence); however, the `message:react` handler emits
`message:reaction:added` on every successful react — the `Except.ok`
result — whether or not the set changed. -/
theorem react_idempotent_and_always_emits (m : Message) (room : Room)
    (uid : UserId) (mid e : String) (r0 : Reaction)
    (hfind : m.reactions.find? (fun r => r.emoji == e) = some r0)
    (hin : uid ∈ r0.users)
    (hcounts : ∀ r ∈ m.reactions, r.count = r.users.length)
    (hmid : mid ≠ "") (he : e ≠ "") (hmem : room.isMember uid = true) :
    m.addReaction e uid = m
    ∧ reactHandler (some m) (some room) uid mid e = Except.ok m := by
  have h1 : m.addReaction e uid = m := by
    unfold Message.addReaction
    rw [hfind]
    simp only [hin, if_true]
    simp [Message.save, preSaveRecount_eq_self hcounts]
  have hmid2 : (mid == "") = false := by simp [hmid]
  have he2 : (e == "") = false := by simp [he]
  refine ⟨h1, ?_⟩
  simp only [reactHandler, hmid2, he2, Bool.or_self, Bool.false_eq_true,
    if_false, hmem, Bool.not_true]
  simp [h1]

/-- Witness for the C4 amended theorem at the concrete already-reacted
message `msgReacted`. -/
theorem react_idempotent_and_always_emits_witness :
    msgReacted.addReaction "x" 1 = msgReacted
    ∧ reactHandler (some msgReacted) (some roomA) 1 "mw" "x"
        = Except.ok msgReacted :=
  react_idempotent_and_always_emits msgReacted roomA 1 "mw" "x"
    { emoji := "x", users := [1], count := 1 }
    (by decide) (by decide) (by decide) (by decide) (by decide) (by decide)

/-! ## Claim C5 -/

/-- The direct-room lookup filter is symmetric in the two users. -/
theorem directRoomPred_comm (u1 u2 : UserId) (r : Room) :
    directRoomPred u1 u2 r = directRoomPred u2 u1 r := by
  unfold directRoomPred
  cases r.rtype == RoomType.direct <;>
    cases r.members.any (fun m => m.user == u1) <;>
    cases r.members.any (fun m => m.user == u2) <;> rfl

/-- The freshly created direct room for `(A, B)` matches the lookup filter
for `(A, B)`. -/
theorem directRoomPred_fresh (A B : UserId) (n : Time) :
    directRoomPred A B (freshDirectRoom A B n) = true := by
  simp [directRoomPred, freshDirectRoom]

/-- C5: two direct-room creation requests for the same unordered pair return
the same room: after a first request for `(A, B)`, a second request — in
either order, with any fresh id and time — returns the id the first request
returned and leaves the store unchanged. -/
theorem direct_room_creation_idempotent (s : Store) (A B : UserId)
    (f1 f2 f3 : RoomId) (n1 n2 n3 : Time) :
    Room.createDirectRoom ((Room.createDirectRoom s A B f1 n1).2) A B f2 n2
        = Room.createDirectRoom s A B f1 n1
    ∧ Room.createDirectRoom ((Room.createDirectRoom s A B f1 n1).2) B A f3 n3
        = Room.createDirectRoom s A B f1 n1 := by
  have hsym : ∀ p : RoomId × Room,
      (fun p : RoomId × Room => directRoomPred B A p.2) p
        = (fun p : RoomId × Room => directRoomPred A B p.2) p :=
    fun p => directRoomPred_comm B A p.2
  rcases hf : s.find? (fun p => directRoomPred A B p.2) with _ | p
  · have e1 : Room.createDirectRoom s A B f1 n1
        = (f1, s ++ [(f1, freshDirectRoom A B n1)]) := by
      unfold Room.createDirectRoom
      rw [hf]
    have hone : ([(f1, freshDirectRoom A B n1)].find?
        (fun p => directRoomPred A B p.2)) = some (f1, freshDirectRoom A B n1) :=
      List.find?_cons_of_pos _ (directRoomPred_fresh A B n1)
    have e2 : ((s ++ [(f1, freshDirectRoom A B n1)]).find?
        (fun p => directRoomPred A B p.2)) = some (f1, freshDirectRoom A B n1) := by
      rw [List.find?_append, hf, hone]
      rfl
    have e3 : ((s ++ [(f1, freshDirectRoom A B n1)]).find?
        (fun p => directRoomPred B A p.2)) = some (f1, freshDirectRoom A B n1) := by
      rw [find?_congr2 hsym, e2]
    constructor
    · rw [e1]
      unfold Room.createDirectRoom
      rw [e2]
    · rw [e1]
      unfold Room.createDirectRoom
      rw [e3]
  · have e1 : Room.createDirectRoom s A B f1 n1 = (p.1, s) := by
      unfold Room.createDirectRoom
      rw [hf]
    constructor
    · rw [e1]
      unfold Room.createDirectRoom
      rw [hf]
    · rw [e1]
      unfold Room.createDirectRoom
      rw [find?_congr2 hsym, hf]

/-! ## Claim C6 -/

/-- A user with a member record distinct from the removed one survives
`members.filter(m => m.user !== target)`. -/
theorem any_user_filter_of_ne {ms : List Member} {c t : UserId}
    (h : ms.any (fun m => m.user == c) = true) (hct : c ≠ t) :
    ((ms.filter (fun m => m.user != t)).any fun m => m.user == c) = true := by
  rcases List.any_eq_true.mp h with ⟨m, hm, hmc⟩
  have hmu : m.user = c := by simpa using hmc
  refine List.any_eq_true.mpr ⟨m, List.mem_filter.mpr ⟨hm, ?_⟩, hmc⟩
  simp [hmu, hct]

/-- C6: when the creator is a member, every membership operation that
succeeds keeps the creator a member, and `removeMember`, `updateMemberRole`
and `leaveRoom` each fail (returning an error, hence changing nothing) when
their target is the creator. -/
theorem creator_membership_protected (r : Room)
    (hcr : r.isMember r.creator = true) :
    (∀ (a t : UserId) (role : Role) (now : Time) (r2 : Room),
      addMemberCtrl r a t role now = Except.ok r2 →
      r2.creator = r.creator ∧ r2.isMember r2.creator = true)
    ∧ (∀ (uid : UserId) (now : Time) (r2 : Room),
      joinRoomCtrl r uid now = Except.ok r2 → r2.isMember r2.creator = true)
    ∧ (∀ (a t : UserId) (r2 : Room),
      removeMemberCtrl r a t = Except.ok r2 → r2.isMember r2.creator = true)
    ∧ (∀ (a t : UserId) (role : Role) (r2 : Room),
      updateMemberRoleCtrl r a t role = Except.ok r2 →
      r2.isMember r2.creator = true)
    ∧ (∀ (uid : UserId) (r2 : Room),
      leaveRoomCtrl r uid = Except.ok r2 → r2.isMember r2.creator = true)
    ∧ (∀ (a : UserId) (r2 : Room),
      removeMemberCtrl r a r.creator ≠ Except.ok r2)
    ∧ (∀ (a : UserId) (role : Role) (r2 : Room),
      updateMemberRoleCtrl r a r.creator role ≠ Except.ok r2)
    ∧ (∀ r2 : Room, leaveRoomCtrl r r.creator ≠ Except.ok r2) := by
  have haddM : ∀ (uid : UserId) (role : Role) (now : Time) (r2 : Room),
      r.addMember uid role now = Except.ok r2 →
      r2.creator = r.creator ∧ r2.isMember r2.creator = true := by
    intro uid role now r2 h
    unfold Room.addMember at h
    split at h
    · cases h
    · split at h
      · cases h
      · cases h
        refine ⟨rfl, ?_⟩
        unfold Room.isMember at hcr ⊢
        simp only [List.any_append, hcr, Bool.true_or]
  refine ⟨?_, ?_, ?_, ?_, ?_, ?_, ?_, ?_⟩
  · intro a t role now r2 h
    unfold addMemberCtrl at h
    split at h
    · cases h
    · exact haddM t role now r2 h
  · intro uid now r2 h
    unfold joinRoomCtrl at h
    split at h
    · cases h
    · split at h
      · cases h
      · split at h
        · cases h
        · exact (haddM uid Role.member now r2 h).2
  · intro a t r2 h
    unfold removeMemberCtrl at h
    split at h
    · cases h
    · split at h
      · cases h
      · cases h
        rename_i hne
        have hct : r.creator ≠ t := by simpa using hne
        unfold Room.isMember at hcr
        show ((r.members.filter fun m => m.user != t).any
          fun m => m.user == r.creator) = true
        exact any_user_filter_of_ne hcr hct
  · intro a t role r2 h
    unfold updateMemberRoleCtrl at h
    split at h
    · cases h
    · split at h
      · cases h
      · unfold Room.updateMemberRole at h
        split at h
        · cases h
          unfold Room.isMember at hcr
          show ((updateFirstMember r.members t
              fun m => { m with role := role }).any
            fun m => m.user == r.creator) = true
          rw [updateFirstMember_any_user r.members t
            (fun m => { m with role := role }) (fun m => rfl)]
          exact hcr
        · cases h
  · intro uid r2 h
    unfold leaveRoomCtrl at h
    split at h
    · cases h
    · split at h
      · cases h
      · cases h
        rename_i hne
        have hcu : r.creator ≠ uid := by simpa using hne
        unfold Room.isMember at hcr
        show ((r.members.filter fun m => m.user != uid).any
          fun m => m.user == r.creator) = true
        exact any_user_filter_of_ne hcr hcu
  · intro a r2 h
    unfold removeMemberCtrl at h
    split at h
    · cases h
    · rw [if_pos (by simp)] at h
      cases h
  · intro a role r2 h
    unfold updateMemberRoleCtrl at h
    split at h
    · cases h
    · rw [if_pos (by simp)] at h
      cases h
  · intro r2 h
    unfold leaveRoomCtrl at h
    split at h
    · cases h
    · rw [if_pos (by simp)] at h
      cases h

/-- Witness for C6 at `roomA` (creator 1 is a member): adding user 5 keeps
the creator a member, and removing/demoting/leaving as the creator all
fail. -/
theorem creator_membership_protected_witness :
    roomA.isMember roomA.creator = true
    ∧ (addMemberCtrl roomA 1 5 Role.member 7 = Except.ok roomAafterAdd →
        roomAafterAdd.creator = roomA.creator
        ∧ roomAafterAdd.isMember roomAafterAdd.creator = true)
    ∧ removeMemberCtrl roomA 1 roomA.creator ≠ Except.ok roomA
    ∧ updateMemberRoleCtrl roomA 1 roomA.creator Role.member ≠ Except.ok roomA
    ∧ leaveRoomCtrl roomA roomA.creator ≠ Except.ok roomA :=
  ⟨by decide,
   (creator_membership_protected roomA (by decide)).1 1 5 Role.member 7
     roomAafterAdd,
   (creator_membership_protected roomA (by decide)).2.2.2.2.2.1 1 roomA,
   (creator_membership_protected roomA (by decide)).2.2.2.2.2.2.1 1
     Role.member roomA,
   (creator_membership_protected roomA (by decide)).2.2.2.2.2.2.2 roomA⟩

/-! ## Claim C7 -/

/-- Updating the read watermark does not change who is a member. -/
theorem isMember_updateLastRead (r : Room) (u x : UserId) (n : Time) :
    (r.updateLastRead u n).isMember x = r.isMember x := by
  unfold Room.updateLastRead
  split
  · show ((updateFirstMember r.members u
        fun m => { m with lastReadAt := n }).any fun m => m.user == x)
      = r.members.any fun m => m.user == x
    exact updateFirstMember_any_user r.members u
      (fun m => { m with lastReadAt := n }) (fun m => rfl) x
  · rfl

/-- After `updateLastRead` the member's watermark equals the time of the
call. -/
theorem lastReadOf_updateLastRead (r : Room) (u : UserId) (n : Time)
    (hm : r.isMember u = true) :
    lastReadOf (r.updateLastRead u n) u = some n := by
  unfold Room.isMember at hm
  unfold Room.updateLastRead lastReadOf
  rw [if_pos (by rw [← any_eq_find?_isSome]; exact hm)]
  exact updateFirstMember_lastRead r.members u n hm

/-- C7: the watermark never regresses. The `messages:mark_read` payload
carries no timestamp; the handler always stamps the current time, so two
mark-read calls (whatever watermarks `t1 > t0` the client meant to request,
`t1` being no later than the first call) leave the watermark at the time of
the second call, which is at least `t1`. -/
theorem watermark_never_regresses (r : Room) (u : UserId) (rid1 rid2 : String)
    (t1 n1 n2 : Time) (hm : r.isMember u = true)
    (h1 : rid1 ≠ "") (h2 : rid2 ≠ "") (ht : t1 ≤ n1) (hn : n1 ≤ n2) :
    markReadHandler (some r) u rid1 n1 = Except.ok (r.updateLastRead u n1)
    ∧ markReadHandler (some (r.updateLastRead u n1)) u rid2 n2
        = Except.ok ((r.updateLastRead u n1).updateLastRead u n2)
    ∧ lastReadOf ((r.updateLastRead u n1).updateLastRead u n2) u = some n2
    ∧ t1 ≤ n2 := by
  have h1b : (rid1 == "") = false := by simp [h1]
  have h2b : (rid2 == "") = false := by simp [h2]
  have hm1 : (r.updateLastRead u n1).isMember u = true := by
    rw [isMember_updateLastRead]; exact hm
  refine ⟨?_, ?_, ?_, by linarith⟩
  · simp [markReadHandler, h1b, hm]
  · simp [markReadHandler, h2b, hm1]
  · exact lastReadOf_updateLastRead _ u n2 hm1

/-- Witness for C7 at `roomA` and its member 3: mark-read calls at times 50
then 60 leave the watermark at 60 ≥ 5. -/
theorem watermark_never_regresses_witness :
    markReadHandler (some roomA) 3 "r1" 50
      = Except.ok (roomA.updateLastRead 3 50)
    ∧ markReadHandler (some (roomA.updateLastRead 3 50)) 3 "r1" 60
        = Except.ok ((roomA.updateLastRead 3 50).updateLastRead 3 60)
    ∧ lastReadOf ((roomA.updateLastRead 3 50).updateLastRead 3 60) 3 = some 60
    ∧ (5 : Time) ≤ 60 :=
  watermark_never_regresses roomA 3 "r1" "r1" 5 50 60 (by decide) (by decide)
    (by decide) (by decide) (by decide)

/-! ## Claim C8 -/

/-- C8 counterexample: the claim says a status-change request for any value
outside `{online, away, busy}` — including `offline` — is rejected; but the
REST route's validation list is `['online', 'away', 'busy', 'offline']`, so a
REST request for `offline` passes validation and is persisted (the controller
even refreshes `lastSeen`). -/
theorem offline_status_accepted_by_rest :
    updateStatusValidation "offline" = true
    ∧ restUpdateStatus userA "offline" 5
        = Except.ok { status := "offline", lastSeen := 5, isActive := true } := by
  decide

/-- C8 amended: the REST status endpoint accepts and persists exactly the
four values `online`, `away`, `busy`, `offline` (its validation set) and
rejects anything else; only the socket `status:update` path restricts the
target to `{online, away, busy}`, rejecting `offline` and any other value
with `Invalid status`. -/
theorem status_update_validation_sets (u : User) (s : String) (now : Time) :
    (updateStatusValidation s = true →
      restUpdateStatus u s now = Except.ok (u.updateStatus s now)
      ∧ (u.updateStatus s now).status = s)
    ∧ (updateStatusValidation s = false →
      restUpdateStatus u s now = Except.error "Validation failed")
    ∧ ((["online", "away", "busy"].contains s) = true →
      socketStatusUpdate u s now = Except.ok (u.updateStatus s now))
    ∧ ((["online", "away", "busy"].contains s) = false →
      socketStatusUpdate u s now = Except.error "Invalid status") := by
  refine ⟨fun h => ⟨by unfold restUpdateStatus; rw [h]; rfl, ?_⟩,
    fun h => by unfold restUpdateStatus; rw [h]; rfl,
    fun h => by unfold socketStatusUpdate; rw [h]; rfl,
    fun h => by unfold socketStatusUpdate; rw [h]; rfl⟩
  unfold User.updateStatus
  split <;> rfl

/-- Witness for the C8 amended theorem: `away` is accepted and persisted by
the REST endpoint, `zzz` is rejected by it, and `offline` is rejected by the
socket path. -/
theorem status_update_validation_sets_witness :
    restUpdateStatus userA "away" 5 = Except.ok (userA.updateStatus "away" 5)
    ∧ restUpdateStatus userA "zzz" 5 = Except.error "Validation failed"
    ∧ socketStatusUpdate userA "offline" 5 = Except.error "Invalid status" :=
  ⟨((status_update_validation_sets userA "away" 5).1 (by decide)).1,
   (status_update_validation_sets userA "zzz" 5).2.1 (by decide),
   (status_update_validation_sets userA "offline" 5).2.2.2 (by decide)⟩

/-! ## Claim C9 -/

/-- C9: the socket `message:unreact` handler never looks the room up and
performs no membership check — for any existing message it completes
(returning the updated message, with the `message:reaction:removed` fan-out)
for any authenticated user whatsoever, whereas `message:react` on the same
message rejects a non-member with the membership error. -/
theorem unreact_skips_membership_check (m : Message) (room : Room)
    (uid : UserId) (mid e : String) (hmid : mid ≠ "") (he : e ≠ "")
    (hnm : room.isMember uid = false) :
    unreactHandler (some m) uid mid e = Except.ok (m.removeReaction e uid)
    ∧ reactHandler (some m) (some room) uid mid e
        = Except.error "You are not a member of this room" := by
  have hmid2 : (mid == "") = false := by simp [hmid]
  have he2 : (e == "") = false := by simp [he]
  constructor
  · simp [unreactHandler, hmid2, he2]
  · simp [reactHandler, hmid2, he2, hnm]

/-- Witness for C9: user 5 is not a member of `roomA`, yet unreacting on
`msgReacted` succeeds while reacting is rejected. -/
theorem unreact_skips_membership_check_witness :
    unreactHandler (some msgReacted) 5 "m1" "x"
      = Except.ok (msgReacted.removeReaction "x" 5)
    ∧ reactHandler (some msgReacted) (some roomA) 5 "m1" "x"
        = Except.error "You are not a member of this room" :=
  unreact_skips_membership_check msgReacted roomA 5 "m1" "x" (by decide)
    (by decide) (by decide)

/-! ## Claim C10 -/

/-- C10: after any completed save of `addReaction` or `removeReaction`,
every reaction entry satisfies `count = users.length` (re-established by the
pre-save middleware), and — provided no entry had an empty user list before —
none has an empty user list afterwards: `removeReaction` drops the emoji
entry when its last user is removed, and `addReaction` always puts the user
into a freshly pushed entry. -/
theorem reaction_counts_consistent_no_empty (m : Message) (e : String)
    (uid : UserId) :
    (∀ r2 ∈ (m.addReaction e uid).reactions, r2.count = r2.users.length)
    ∧ (∀ r2 ∈ (m.removeReaction e uid).reactions, r2.count = r2.users.length)
    ∧ ((∀ r2 ∈ m.reactions, r2.users ≠ []) →
        ∀ r2 ∈ (m.addReaction e uid).reactions, r2.users ≠ [])
    ∧ ((∀ r2 ∈ m.reactions, r2.users ≠ []) →
        ∀ r2 ∈ (m.removeReaction e uid).reactions, r2.users ≠ []) := by
  refine ⟨fun r2 hr2 => preSaveRecount_counts r2 hr2,
    fun r2 hr2 => preSaveRecount_counts r2 hr2, ?_, ?_⟩
  · intro hne r2 hr2
    simp only [Message.addReaction, Message.save] at hr2
    rcases mem_preSaveRecount hr2 with ⟨y, hy, rfl⟩
    show y.users ≠ []
    rcases hfind : m.reactions.find? (fun r => r.emoji == e) with _ | r0
    · rw [hfind] at hy
      simp only at hy
      rcases List.mem_append.mp hy with h | h
      · exact hne y h
      · rcases List.mem_singleton.mp h with rfl
        simp
    · rw [hfind] at hy
      simp only at hy
      by_cases hin : uid ∈ r0.users
      · rw [if_pos hin] at hy
        exact hne y hy
      · rw [if_neg hin] at hy
        rcases mem_updateFirstReaction hy with h | ⟨z, _, rfl⟩
        · exact hne y h
        · simp
  · intro hne r2 hr2
    simp only [Message.removeReaction, Message.save] at hr2
    rcases mem_preSaveRecount hr2 with ⟨y, hy, rfl⟩
    show y.users ≠ []
    rcases hfind : m.reactions.find? (fun r => r.emoji == e) with _ | r0
    · rw [hfind] at hy
      exact hne y hy
    · rw [hfind] at hy
      simp only at hy
      by_cases hz : ((r0.users.filter (fun u => u != uid)).length == 0) = true
      · rw [if_pos hz] at hy
        exact hne y (List.mem_filter.mp hy).1
      · rw [if_neg hz] at hy
        rcases mem_updateFirstReaction hy with h | ⟨z, hzfind, rfl⟩
        · exact hne y h
        · have hz0 : z = r0 := by
            rw [hfind] at hzfind
            exact (Option.some_inj.mp hzfind).symm
          subst hz0
          intro hcontra
          apply hz
          have hc2 : List.filter (fun u => u != uid) z.users = [] := hcontra
          rw [hc2]
          rfl

/-- Witness for C10 at `msgReacted` (one consistent, non-empty reaction
entry): after user 2 reacts with `x` every entry keeps `count` consistent and
non-empty user lists. -/
theorem reaction_counts_consistent_no_empty_witness :
    (∀ r2 ∈ (msgReacted.addReaction "x" 2).reactions,
      r2.count = r2.users.length)
    ∧ (∀ r2 ∈ (msgReacted.removeReaction "x" 1).reactions,
      r2.count = r2.users.length)
    ∧ (∀ r2 ∈ (msgReacted.addReaction "x" 2).reactions, r2.users ≠ [])
    ∧ (∀ r2 ∈ (msgReacted.removeReaction "x" 1).reactions, r2.users ≠ []) :=
  ⟨(reaction_counts_consistent_no_empty msgReacted "x" 2).1,
   (reaction_counts_consistent_no_empty msgReacted "x" 1).2.1,
   (reaction_counts_consistent_no_empty msgReacted "x" 2).2.2.1
     (by decide),
   (reaction_counts_consistent_no_empty msgReacted "x" 1).2.2.2
     (by decide)⟩

end Chat
